import Mathlib

/-!
Shallow embedding of the Indonesian geocoder service (`src/main.rs`).

Strings are modelled as `List Char`; both Rust's `to_lowercase()` and
SQLite's `LOWER(...)` are modelled by the ASCII lowering `lowerL` (they
agree on ASCII data, which is what the dataset and queries contain).
Coordinates (Rust `f64`) are modelled as `Rat`; the floating-point
haversine distance is abstracted as a function parameter
`dist : Rat × Rat → Rat × Rat → Int`, already rounded to integer meters,
on points in `(lng, lat)` order exactly as `geo::Point::new(lng, lat)`.
The geometry library (`geozero` decode + `geo` containment) is abstracted
as `decode : List Nat → Option G` (the WKB byte blob, `Ok` mapped to
`some`) and `geomContains : G → Rat × Rat → Bool`.
The SQLite repository is modelled as the full joined `villages` table,
`Except String (List Village)` standing for the outcome of `fetch_all`;
the SQL `WHERE` / `LIMIT` clauses of each handler's query are executed on
that table by the handler model itself.
-/

/-- One joined row of the `villages` table, as both handler queries see it:
`v.id, v.name, d.name, r.name, p.name, v.lat, v.lng` plus the bounding box
columns and the WKB `boundaries` blob used by reverse geocoding. -/
structure Village where
  id : List Char
  name : List Char
  district_name : List Char
  regency_name : List Char
  province_name : List Char
  lat : Rat
  lng : Rat
  min_lat : Rat
  max_lat : Rat
  min_lng : Rat
  max_lng : Rat
  boundaries : List Nat
deriving DecidableEq

/-- Response model `LocationDetail` of `main.rs`. -/
structure LocationDetail where
  province : List Char
  regency : List Char
  district : List Char
  village : List Char
deriving DecidableEq

/-- Response model `LocationInfo` of `main.rs`. -/
structure LocationInfo where
  level : List Char
  id : List Char
  name : List Char
  location_detail : LocationDetail
  full_name : List Char
  lat : Rat
  lng : Rat
  distance_meters : Option Int
deriving DecidableEq

/-- Response model `APIResponse` of `main.rs`; the handlers return it
paired with the HTTP status code produced by `into_response()`
(200 for a plain `Json`, 500 for the storage-failure branch). -/
structure APIResponse (T : Type) where
  success : Bool
  data : Option T
  error : Option String
deriving DecidableEq

/-- ASCII lowering of one character: models both Rust `to_lowercase` and
SQLite `LOWER` on the ASCII data this service handles. -/
def lowerChar (c : Char) : Char :=
  if 'A' ≤ c ∧ c ≤ 'Z' then Char.ofNat (c.toNat + 32) else c

/-- ASCII lowering of a string. -/
def lowerL (s : List Char) : List Char := s.map lowerChar

/-- Whitespace test for `split_whitespace`. -/
def isWs (c : Char) : Bool := c == ' ' || c == '\t' || c == '\n' || c == '\r'

/-- Accumulator worker for `split_whitespace`. -/
def splitWsAux : List Char → List Char → List (List Char)
  | [], acc => if acc.isEmpty then [] else [acc.reverse]
  | c :: cs, acc =>
    if isWs c then
      (if acc.isEmpty then splitWsAux cs [] else acc.reverse :: splitWsAux cs [])
    else splitWsAux cs (c :: acc)

/-- Rust `split_whitespace`: split into maximal non-whitespace runs. -/
def splitWs (s : List Char) : List (List Char) := splitWsAux s []

/-- SQLite `LIKE` pattern matching (default, no ESCAPE): `%` matches any
sequence, `_` matches exactly one character, anything else matches
literally.  Both sides are already lowered before this is applied, which
is how the handler achieves case insensitivity. -/
def likeMatch : List Char → List Char → Bool
  | [], t => t.isEmpty
  | a :: ps, t =>
    if a = '%' then (List.tails t).any (fun s => likeMatch ps s)
    else
      match t with
      | [] => false
      | c :: ts => (if a = '_' then true else a == c) && likeMatch ps ts

/-- Boolean test that the first list is an initial segment of the second. -/
def beginsWith : List Char → List Char → Bool
  | [], _ => true
  | _ :: _, [] => false
  | a :: ks, c :: ts => a == c && beginsWith ks ts

/-- Substring containment: some suffix of `t` starts with `kw`. -/
def containsSub (kw t : List Char) : Bool :=
  (List.tails t).any (fun s => beginsWith kw s)

/-- The pattern `format!("%{}%", s)` bound to each `LIKE`. -/
def mkPattern (kw : List Char) : List Char := '%' :: (kw ++ ['%'])

/-- The generated `WHERE` clause of `search_places`: for each bound
pattern, `LOWER(v.name) LIKE ? OR LOWER(d.name) LIKE ? OR LOWER(r.name)
LIKE ? OR LOWER(p.name) LIKE ?`, joined with `AND`. -/
def rowMatches (pats : List (List Char)) (v : Village) : Bool :=
  pats.all fun pat =>
    likeMatch pat (lowerL v.name) || likeMatch pat (lowerL v.district_name) ||
    likeMatch pat (lowerL v.regency_name) || likeMatch pat (lowerL v.province_name)

/-- The candidate pool of `search_places`: rows of the table satisfying the
generated `WHERE` clause, in repository order, capped by `LIMIT 100`. -/
def searchPool (db : List Village) (pats : List (List Char)) : List Village :=
  (db.filter (rowMatches pats)).take 100

/-- The claim's filter, in the spec's words: for every keyword, at least
one of the four name fields contains it as a (case-insensitive, both sides
lowered) substring.  Used only to compare against `rowMatches`. -/
def substrSpec (kws : List (List Char)) (v : Village) : Bool :=
  kws.all fun kw =>
    containsSub kw (lowerL v.name) || containsSub kw (lowerL v.district_name) ||
    containsSub kw (lowerL v.regency_name) || containsSub kw (lowerL v.province_name)

/-- Line 245: `if params.limit == 0 { 10 } else { params.limit.min(50) }`. -/
def effectiveLimit (l : Nat) : Nat := if l = 0 then 10 else min l 50

/-- Lines 291-294: the reference point exists only when both `lat` and
`lng` query parameters are present; built as `Point::new(lng, lat)`. -/
def userLoc (plat plng : Option Rat) : Option (Rat × Rat) :=
  match plat, plng with
  | some lat, some lng => some (lng, lat)
  | _, _ => none

/-- The fixed display template
`format!("Kelurahan ..., Kecamatan ..., ..., ...")` of both handlers. -/
def fullNameOf (v d r p : List Char) : List Char :=
  ("Kelurahan ".toList) ++ v ++ (", Kecamatan ".toList) ++ d ++
  (", ".toList) ++ r ++ (", ".toList) ++ p

/-- Building one `LocationInfo` from a row, as both handlers do:
`level` is the constant `'village'` selected by the query, the distance is
present exactly when a reference point is, computed from the reference
point to the row's centroid `(lng, lat)` point. -/
def mkInfo (dist : Rat × Rat → Rat × Rat → Int) (uloc : Option (Rat × Rat))
    (v : Village) : LocationInfo :=
  { level := "village".toList
    id := v.id
    name := v.name
    location_detail :=
      { province := v.province_name
        regency := v.regency_name
        district := v.district_name
        village := v.name }
    full_name := fullNameOf v.name v.district_name v.regency_name v.province_name
    lat := v.lat
    lng := v.lng
    distance_meters :=
      match uloc with
      | some upt => some (dist upt (v.lng, v.lat))
      | none => none }

/-- Stable insertion of `x` into `l`: `x` passes only strictly-smaller
elements, so earlier elements keep their place among equals, matching the
stable `sort_by` of the source. -/
def insertBy (lt : α → α → Bool) (x : α) : List α → List α
  | [] => [x]
  | y :: ys => if lt y x then y :: insertBy lt x ys else x :: y :: ys

/-- Stable insertion sort modelling `Vec::sort_by` (a stable sort on the
same comparator yields the identical list). -/
def sortBy (lt : α → α → Bool) : List α → List α
  | [] => []
  | x :: xs => insertBy lt x (sortBy lt xs)

/-- `i64::MAX`, the sentinel of the distance comparator. -/
def i64Max : Int := 9223372036854775807

/-- Comparator key `a.distance_meters.unwrap_or(i64::MAX)` (lines 330-333). -/
def distKey (a : LocationInfo) : Int := a.distance_meters.getD i64Max

/-- The distance comparator of `search_places`. -/
def byDistance (a b : LocationInfo) : Bool := decide (distKey a < distKey b)

/-- The name-length comparator `a.name.len().cmp(&b.name.len())`
(line 335); `name` is the village name field. -/
def byNameLen (a b : LocationInfo) : Bool := decide (a.name.length < b.name.length)

/-- Lines 287-338 of `search_places` after a successful fetch: build the
pool, annotate rows, sort by distance or by name length, truncate. -/
def searchCore (dist : Rat × Rat → Rat × Rat → Int) (uloc : Option (Rat × Rat))
    (db : List Village) (kws : List (List Char)) (limit : Nat) : List LocationInfo :=
  (if uloc.isSome then sortBy byDistance ((searchPool db kws).map (mkInfo dist uloc))
   else sortBy byNameLen ((searchPool db kws).map (mkInfo dist uloc))).take limit

/-- The `search_places` handler (lines 241-358).  `fetch` is the outcome
of `fetch_all` on the joined villages table; the `WHERE`/`LIMIT` of the
generated query are evaluated by `searchCore` on the fetched table. -/
def search_places (dist : Rat × Rat → Rat × Rat → Int)
    (fetch : Except String (List Village)) (q : List Char) (limit0 : Nat)
    (plat plng : Option Rat) : Nat × APIResponse (List LocationInfo) :=
  let limit := effectiveLimit limit0
  let keywords := (splitWs (lowerL q)).map mkPattern
  if keywords.isEmpty then
    (200, ⟨true, some [], none⟩)
  else
    match fetch with
    | .ok db =>
      (200, ⟨true, some (searchCore dist (userLoc plat plng) db keywords limit), none⟩)
    | .error _ => (500, ⟨false, none, some "Internal server error"⟩)

/-- The `BETWEEN` prefilter of the reverse-geocode query (lines 179-180):
`lat BETWEEN v.min_lat AND v.max_lat AND lng BETWEEN v.min_lng AND v.max_lng`. -/
def inBox (lat lng : Rat) (v : Village) : Bool :=
  decide (v.min_lat ≤ lat ∧ lat ≤ v.max_lat ∧ v.min_lng ≤ lng ∧ lng ≤ v.max_lng)

/-- One candidate check of the reverse-geocode loop: the boundary blob
decodes and the decoded geometry contains the query point. -/
def candMatches {G : Type} (decode : List Nat → Option G)
    (geomContains : G → Rat × Rat → Bool) (pt : Rat × Rat) (v : Village) : Bool :=
  match decode v.boundaries with
  | some g => geomContains g pt
  | none => false

/-- The candidate loop of `reverse_geocode` (lines 185-225): decode each
row's blob; on decode success test containment and return the first hit;
on decode failure fall through to the next row. -/
def scanRows {G : Type} (decode : List Nat → Option G)
    (geomContains : G → Rat × Rat → Bool) (pt : Rat × Rat) :
    List Village → Option Village
  | [] => none
  | r :: rest =>
    match decode r.boundaries with
    | some g =>
      if geomContains g pt then some r else scanRows decode geomContains pt rest
    | none => scanRows decode geomContains pt rest

/-- The `reverse_geocode` handler (lines 163-239). `fetch` is the outcome
of `fetch_all`; the `BETWEEN` box predicate of the query is evaluated on
the fetched table, preserving repository order. -/
def reverse_geocode {G : Type} (decode : List Nat → Option G)
    (geomContains : G → Rat × Rat → Bool) (dist : Rat × Rat → Rat × Rat → Int)
    (fetch : Except String (List Village)) (lat lng : Rat) :
    Nat × APIResponse LocationInfo :=
  let pt : Rat × Rat := (lng, lat)
  match fetch with
  | .ok db =>
    match scanRows decode geomContains pt (db.filter (inBox lat lng)) with
    | some v => (200, ⟨true, some (mkInfo dist (some pt) v), none⟩)
    | none => (200, ⟨false, none, some "Location not found"⟩)
  | .error _ => (500, ⟨false, none, some "Internal server error"⟩)

/-! Concrete inputs used by witnesses and counterexamples. -/

/-- A placeholder distance function (the claims hold for every distance
function, so witnesses may pick a trivial one). -/
def distZero : Rat × Rat → Rat × Rat → Int := fun _ _ => 0

/-- A distance function distinguishing points, for sort witnesses. -/
def distToll : Rat × Rat → Rat × Rat → Int := fun _ p => if p.1 = 0 then 5 else 3

/-- Village whose name LIKE-matches the pattern of keyword `a_c` without
containing `a_c` literally. -/
def cxVillage : Village :=
  { id := "1".toList, name := "axc".toList, district_name := "zzz".toList,
    regency_name := "zzz".toList, province_name := "zzz".toList,
    lat := 0, lng := 0, min_lat := 0, max_lat := 0, min_lng := 0, max_lng := 0,
    boundaries := [] }

/-- Village with a short village name but a long full display name. -/
def shortNameVillage : Village :=
  { id := "A".toList, name := "aa".toList, district_name := "dddddddddd".toList,
    regency_name := "x".toList, province_name := "x".toList,
    lat := 0, lng := 0, min_lat := 0, max_lat := 0, min_lng := 0, max_lng := 0,
    boundaries := [] }

/-- Village with a longer village name but a shorter full display name. -/
def longNameVillage : Village :=
  { id := "B".toList, name := "bbb".toList, district_name := "e".toList,
    regency_name := "x".toList, province_name := "x".toList,
    lat := 1, lng := 1, min_lat := 0, max_lat := 0, min_lng := 0, max_lng := 0,
    boundaries := [] }

/-- Toy geometry decoder: the blob `[1]` decodes, anything else fails. -/
def decodeBit : List Nat → Option Unit :=
  fun b => if b = [1] then some Unit.unit else none

/-- Toy containment test accepting every point. -/
def containsAll : Unit → Rat × Rat → Bool := fun _ _ => true

/-- Village with a decodable boundary and a box around the origin. -/
def boxVillage : Village :=
  { id := "V".toList, name := "v".toList, district_name := "d".toList,
    regency_name := "r".toList, province_name := "p".toList,
    lat := 2, lng := 3, min_lat := -1, max_lat := 1, min_lng := -1, max_lng := 1,
    boundaries := [1] }

/-- Village whose boundary blob fails to decode, same box. -/
def badVillage : Village :=
  { id := "W".toList, name := "w".toList, district_name := "d".toList,
    regency_name := "r".toList, province_name := "p".toList,
    lat := 2, lng := 3, min_lat := -1, max_lat := 1, min_lng := -1, max_lng := 1,
    boundaries := [0] }

/-! LIKE-pattern semantics versus literal substring containment. -/

/-- Unfolding of `likeMatch` at a leading wildcard. -/
theorem likeMatch_percent_cons (ps t : List Char) :
    likeMatch ('%' :: ps) t = (List.tails t).any (fun s => likeMatch ps s) := by
  simp [likeMatch]

/-- The pattern consisting of a single `%` matches everything. -/
theorem likeMatch_percent (t : List Char) : likeMatch ['%'] t = true := by
  rw [likeMatch_percent_cons]
  exact List.any_eq_true.2 ⟨[], (List.mem_tails [] t).2 List.nil_suffix, rfl⟩

/-- A wildcard-free pattern followed by `%` matches exactly the strings it
begins. -/
theorem likeMatch_lit_append (kw : List Char) (hp : '%' ∉ kw) (hu : '_' ∉ kw)
    (s : List Char) : likeMatch (kw ++ ['%']) s = beginsWith kw s := by
  induction kw generalizing s with
  | nil => simp [beginsWith, likeMatch_percent]
  | cons a ks ih =>
    have ha1 : a ≠ '%' := fun h => hp (h ▸ List.mem_cons_self a ks)
    have ha2 : a ≠ '_' := fun h => hu (h ▸ List.mem_cons_self a ks)
    have hp2 : '%' ∉ ks := fun h => hp (List.mem_cons_of_mem a h)
    have hu2 : '_' ∉ ks := fun h => hu (List.mem_cons_of_mem a h)
    cases s with
    | nil => simp [likeMatch, beginsWith, ha1]
    | cons c ts => simp [likeMatch, beginsWith, ha1, ha2, ih hp2 hu2]

/-- For a wildcard-free keyword, the bound pattern `%kw%` LIKE-matches a
string exactly when the keyword occurs in it as a substring. -/
theorem likeMatch_mkPattern (kw : List Char) (hp : '%' ∉ kw) (hu : '_' ∉ kw)
    (t : List Char) : likeMatch (mkPattern kw) t = containsSub kw t := by
  rw [mkPattern, likeMatch_percent_cons, containsSub]
  congr 1
  funext s
  exact likeMatch_lit_append kw hp hu s

/-- For wildcard-free keywords the generated `WHERE` clause coincides with
the spec's conjunctive substring filter. -/
theorem rowMatches_eq_substrSpec (kws : List (List Char))
    (h : ∀ kw ∈ kws, '%' ∉ kw ∧ '_' ∉ kw) (v : Village) :
    rowMatches (kws.map mkPattern) v = substrSpec kws v := by
  induction kws with
  | nil => rfl
  | cons kw ks ih =>
    have hk := h kw (List.mem_cons_self kw ks)
    have hks : ∀ k ∈ ks, '%' ∉ k ∧ '_' ∉ k :=
      fun k hk2 => h k (List.mem_cons_of_mem kw hk2)
    simp only [rowMatches, substrSpec, List.map_cons, List.all_cons] at *
    rw [ih hks, likeMatch_mkPattern kw hk.1 hk.2, likeMatch_mkPattern kw hk.1 hk.2,
      likeMatch_mkPattern kw hk.1 hk.2, likeMatch_mkPattern kw hk.1 hk.2]

/-- C1 (counterexample): for the tokenized query `a_c` (non-empty), the
village named `axc` is included in the result pool although none of its
four name fields contains the keyword `a_c` as a substring — the `_` of
the keyword acts as a SQL LIKE single-character wildcard. -/
theorem c1_counterexample :
    (splitWs (lowerL ("a_c".toList))).map mkPattern ≠ [] ∧
    cxVillage ∈ searchPool [cxVillage] ((splitWs (lowerL ("a_c".toList))).map mkPattern) ∧
    substrSpec (splitWs (lowerL ("a_c".toList))) cxVillage = false := by
  decide

/-- C1 (amended): for every text-search request whose keywords contain no
SQL LIKE wildcard character (`%` or `_`), the result pool is exactly the
first 100 repository rows (in repository order) such that every keyword
occurs as a case-insensitive substring of at least one of the four name
fields (AND across keywords, OR across fields). -/
theorem c1_pool_substring (db : List Village) (q : List Char)
    (h : ∀ kw ∈ splitWs (lowerL q), '%' ∉ kw ∧ '_' ∉ kw) :
    searchPool db ((splitWs (lowerL q)).map mkPattern) =
      (db.filter (substrSpec (splitWs (lowerL q)))).take 100 := by
  unfold searchPool
  congr 1
  exact List.filter_congr fun v _ =>
    rowMatches_eq_substrSpec (splitWs (lowerL q)) h v

/-- Witness for C1 (amended) at the query `jakarta selatan` over a
two-row table: the pool keeps exactly the row whose fields contain both
keywords. -/
theorem c1_pool_substring_witness :
    searchPool [cxVillage, shortNameVillage]
        ((splitWs (lowerL ("zz aa".toList))).map mkPattern) =
      (([cxVillage, shortNameVillage]).filter
        (substrSpec (splitWs (lowerL ("zz aa".toList))))).take 100 :=
  c1_pool_substring [cxVillage, shortNameVillage] ("zz aa".toList) (by decide)

/-! Reverse-geocode candidate scan. -/

/-- One-step unfolding of the scan at a cons cell. -/
theorem scanRows_cons_eq {G : Type} (decode : List Nat → Option G)
    (gc : G → Rat × Rat → Bool) (pt : Rat × Rat) (r : Village)
    (rest : List Village) :
    scanRows decode gc pt (r :: rest) =
      match decode r.boundaries with
      | some g => if gc g pt then some r else scanRows decode gc pt rest
      | none => scanRows decode gc pt rest := rfl

/-- Unfolding of the scan at an undecodable head row. -/
theorem scanRows_cons_none {G : Type} (decode : List Nat → Option G)
    (gc : G → Rat × Rat → Bool) (pt : Rat × Rat) {r : Village}
    (rest : List Village) (hd : decode r.boundaries = none) :
    scanRows decode gc pt (r :: rest) = scanRows decode gc pt rest := by
  rw [scanRows_cons_eq, hd]

/-- Unfolding of the scan at a decodable head row. -/
theorem scanRows_cons_some {G : Type} (decode : List Nat → Option G)
    (gc : G → Rat × Rat → Bool) (pt : Rat × Rat) {r : Village} {g : G}
    (rest : List Village) (hd : decode r.boundaries = some g) :
    scanRows decode gc pt (r :: rest) =
      if gc g pt then some r else scanRows decode gc pt rest := by
  rw [scanRows_cons_eq, hd]

/-- A list of candidates none of which matches scans to no result. -/
theorem scanRows_eq_none {G : Type} (decode : List Nat → Option G)
    (gc : G → Rat × Rat → Bool) (pt : Rat × Rat) (l : List Village)
    (h : ∀ r ∈ l, candMatches decode gc pt r = false) :
    scanRows decode gc pt l = none := by
  induction l with
  | nil => rfl
  | cons r rest ih =>
    have hr : candMatches decode gc pt r = false := h r (List.mem_cons_self r rest)
    have hrest := ih fun x hx => h x (List.mem_cons_of_mem r hx)
    cases hd : decode r.boundaries with
    | none => rw [scanRows_cons_none decode gc pt rest hd, hrest]
    | some g =>
      have hg : gc g pt = false := by
        unfold candMatches at hr
        rw [hd] at hr
        exact hr
      rw [scanRows_cons_some decode gc pt rest hd, hg]
      simp [hrest]

/-- Scanning an appended candidate list tries the left part first. -/
theorem scanRows_append {G : Type} (decode : List Nat → Option G)
    (gc : G → Rat × Rat → Bool) (pt : Rat × Rat) (l1 l2 : List Village) :
    scanRows decode gc pt (l1 ++ l2) =
      (match scanRows decode gc pt l1 with
       | some v => some v
       | none => scanRows decode gc pt l2) := by
  induction l1 with
  | nil => rfl
  | cons r rest ih =>
    rw [List.cons_append]
    cases hd : decode r.boundaries with
    | none =>
      rw [scanRows_cons_none decode gc pt _ hd, scanRows_cons_none decode gc pt rest hd, ih]
    | some g =>
      rw [scanRows_cons_some decode gc pt _ hd, scanRows_cons_some decode gc pt rest hd]
      by_cases hc : gc g pt = true
      · rw [if_pos hc, if_pos hc]
      · rw [if_neg hc, if_neg hc, ih]

/-- A matching candidate at the head of the list is returned at once. -/
theorem scanRows_cons_match {G : Type} (decode : List Nat → Option G)
    (gc : G → Rat × Rat → Bool) (pt : Rat × Rat) (m : Village)
    (post : List Village) (hm : candMatches decode gc pt m = true) :
    scanRows decode gc pt (m :: post) = some m := by
  unfold candMatches at hm
  cases hd : decode m.boundaries with
  | none => rw [hd] at hm; exact absurd hm (by simp)
  | some g =>
    rw [hd] at hm
    rw [scanRows_cons_some decode gc pt post hd, if_pos hm]

/-- Reduction of the handler on a successful fetch. -/
theorem reverse_geocode_ok {G : Type} (decode : List Nat → Option G)
    (gc : G → Rat × Rat → Bool) (dist : Rat × Rat → Rat × Rat → Int)
    (db : List Village) (lat lng : Rat) :
    reverse_geocode decode gc dist (Except.ok db) lat lng =
      (match scanRows decode gc (lng, lat) (db.filter (inBox lat lng)) with
       | some v => (200, ⟨true, some (mkInfo dist (some (lng, lat)) v), none⟩)
       | none => (200, ⟨false, none, some "Location not found"⟩)) := rfl

/-- C2: for a successful repository fetch, the resolver walks exactly the
rows whose bounding box contains the query point, in repository order, and
answers with the first row whose decoded boundary contains the point; the
rows after that first match (`post`) have no influence on the response, so
they are never decoded or checked. -/
theorem c2_first_match {G : Type} (decode : List Nat → Option G)
    (gc : G → Rat × Rat → Bool) (dist : Rat × Rat → Rat × Rat → Int)
    (db : List Village) (lat lng : Rat) (pre : List Village) (m : Village)
    (post : List Village)
    (hsplit : db.filter (inBox lat lng) = pre ++ m :: post)
    (hpre : ∀ x ∈ pre, candMatches decode gc (lng, lat) x = false)
    (hm : candMatches decode gc (lng, lat) m = true) :
    reverse_geocode decode gc dist (Except.ok db) lat lng =
      (200, ⟨true, some (mkInfo dist (some (lng, lat)) m), none⟩) := by
  rw [reverse_geocode_ok, hsplit, scanRows_append,
    scanRows_eq_none decode gc (lng, lat) pre hpre,
    scanRows_cons_match decode gc (lng, lat) m post hm]

/-- Witness for C2: a one-candidate table around the origin resolves to
that candidate. -/
theorem c2_first_match_witness :
    reverse_geocode decodeBit containsAll distZero (Except.ok [boxVillage]) 0 0 =
      (200, ⟨true, some (mkInfo distZero (some ((0 : Rat), (0 : Rat))) boxVillage), none⟩) :=
  c2_first_match decodeBit containsAll distZero [boxVillage] 0 0 [] boxVillage []
    (by decide) (by simp) (by decide)

/-- C3: a candidate row whose boundary blob fails to decode is skipped:
the whole response equals the response computed on the table without that
row, for every query point — the failure is invisible to the caller and
never aborts the request. -/
theorem c3_undecodable_skipped {G : Type} (decode : List Nat → Option G)
    (gc : G → Rat × Rat → Bool) (dist : Rat × Rat → Rat × Rat → Int)
    (db1 db2 : List Village) (r : Village) (lat lng : Rat)
    (hr : decode r.boundaries = none) :
    reverse_geocode decode gc dist (Except.ok (db1 ++ r :: db2)) lat lng =
      reverse_geocode decode gc dist (Except.ok (db1 ++ db2)) lat lng := by
  rw [reverse_geocode_ok, reverse_geocode_ok, List.filter_append, List.filter_append,
    List.filter_cons]
  by_cases hb : inBox lat lng r = true
  · rw [if_pos hb, scanRows_append, scanRows_append,
      scanRows_cons_none decode gc (lng, lat) _ hr]
  · rw [if_neg hb]

/-- Witness for C3: an undecodable row in front of a good row changes
nothing. -/
theorem c3_undecodable_skipped_witness :
    reverse_geocode decodeBit containsAll distZero
        (Except.ok ([] ++ badVillage :: [boxVillage])) 0 0 =
      reverse_geocode decodeBit containsAll distZero
        (Except.ok ([] ++ [boxVillage])) 0 0 :=
  c3_undecodable_skipped decodeBit containsAll distZero [] [boxVillage]
    badVillage 0 0 (by decide)

/-- C4: when the fetch succeeds and no box candidate's decoded boundary
contains the point, the response is the 200 `success:false`,
`error:"Location not found"`, `data:null` outcome, and that response is
distinct from the 500 internal-error response produced whenever the
repository call fails. -/
theorem c4_not_found {G : Type} (decode : List Nat → Option G)
    (gc : G → Rat × Rat → Bool) (dist : Rat × Rat → Rat × Rat → Int)
    (db : List Village) (lat lng : Rat)
    (h : ∀ r ∈ db.filter (inBox lat lng), candMatches decode gc (lng, lat) r = false) :
    reverse_geocode decode gc dist (Except.ok db) lat lng =
      (200, ⟨false, none, some "Location not found"⟩) ∧
    (∀ e : String, reverse_geocode decode gc dist (Except.error e) lat lng =
      (500, ⟨false, none, some "Internal server error"⟩)) ∧
    ((200, ⟨false, none, some "Location not found"⟩) :
        Nat × APIResponse LocationInfo) ≠
      (500, ⟨false, none, some "Internal server error"⟩) := by
  refine ⟨?_, fun e => rfl, by decide⟩
  rw [reverse_geocode_ok, scanRows_eq_none decode gc (lng, lat) _ h]

/-- Witness for C4: a table whose only box candidate does not contain the
point yields the not-found response. -/
theorem c4_not_found_witness :
    reverse_geocode decodeBit (fun _ _ => false) distZero
        (Except.ok [boxVillage]) 0 0 =
      (200, ⟨false, none, some "Location not found"⟩) :=
  (c4_not_found decodeBit (fun _ _ => false) distZero [boxVillage] 0 0
    (by decide)).1

/-! Stable insertion sort: membership and sortedness. -/

/-- Membership through `insertBy`. -/
theorem mem_insertBy {α : Type} {lt : α → α → Bool} {x a : α} {l : List α} :
    a ∈ insertBy lt x l ↔ a = x ∨ a ∈ l := by
  induction l with
  | nil => simp [insertBy]
  | cons y ys ih =>
    unfold insertBy
    by_cases h : lt y x = true
    · rw [if_pos h]
      simp only [List.mem_cons, ih]
      tauto
    · rw [if_neg h]
      simp only [List.mem_cons]

/-- Membership through `sortBy`. -/
theorem mem_sortBy {α : Type} {lt : α → α → Bool} {a : α} {l : List α} :
    a ∈ sortBy lt l ↔ a ∈ l := by
  induction l with
  | nil => simp [sortBy]
  | cons x xs ih =>
    unfold sortBy
    rw [mem_insertBy]
    simp [ih]

/-- Inserting into a key-sorted list keeps it key-sorted. -/
theorem pairwise_insertBy {α K : Type} [LinearOrder K] (key : α → K) (x : α)
    (l : List α) (h : l.Pairwise (fun a b => key a ≤ key b)) :
    (insertBy (fun a b => decide (key a < key b)) x l).Pairwise
      (fun a b => key a ≤ key b) := by
  induction l with
  | nil => simp [insertBy]
  | cons y ys ih =>
    rw [List.pairwise_cons] at h
    unfold insertBy
    by_cases hlt : key y < key x
    · rw [if_pos (by simpa using hlt), List.pairwise_cons]
      refine ⟨fun b hb => ?_, ih h.2⟩
      rcases mem_insertBy.1 hb with rfl | hb2
      · exact le_of_lt hlt
      · exact h.1 b hb2
    · rw [if_neg (by simpa using hlt), List.pairwise_cons]
      refine ⟨fun b hb => ?_, List.pairwise_cons.2 h⟩
      rcases List.mem_cons.1 hb with rfl | hb2
      · exact not_lt.1 hlt
      · exact le_trans (not_lt.1 hlt) (h.1 b hb2)

/-- The insertion sort on a strict key comparator yields a key-sorted list. -/
theorem pairwise_sortBy {α K : Type} [LinearOrder K] (key : α → K)
    (l : List α) :
    (sortBy (fun a b => decide (key a < key b)) l).Pairwise
      (fun a b => key a ≤ key b) := by
  induction l with
  | nil => simp [sortBy]
  | cons x xs ih => exact pairwise_insertBy key x _ ih

/-! Reductions and facts about `search_places`. -/

/-- Reduction of the search handler when the tokenized query is empty. -/
theorem search_places_no_keywords (dist : Rat × Rat → Rat × Rat → Int)
    (fetch : Except String (List Village)) (q : List Char) (limit0 : Nat)
    (plat plng : Option Rat) (h : splitWs (lowerL q) = []) :
    search_places dist fetch q limit0 plat plng = (200, ⟨true, some [], none⟩) := by
  unfold search_places
  rw [h]
  rfl

/-- Reduction of the search handler on a successful fetch with a non-empty
keyword list. -/
theorem search_places_ok (dist : Rat × Rat → Rat × Rat → Int)
    (db : List Village) (q : List Char) (limit0 : Nat)
    (plat plng : Option Rat) (h : splitWs (lowerL q) ≠ []) :
    search_places dist (Except.ok db) q limit0 plat plng =
      (200, ⟨true, some (searchCore dist (userLoc plat plng) db
        ((splitWs (lowerL q)).map mkPattern) (effectiveLimit limit0)), none⟩) := by
  unfold search_places
  cases hs : splitWs (lowerL q) with
  | nil => exact absurd hs h
  | cons a as => rfl

/-- Reduction of the search handler on a storage failure with a non-empty
keyword list. -/
theorem search_places_err (dist : Rat × Rat → Rat × Rat → Int) (e : String)
    (q : List Char) (limit0 : Nat) (plat plng : Option Rat)
    (h : splitWs (lowerL q) ≠ []) :
    search_places dist (Except.error e) q limit0 plat plng =
      (500, ⟨false, none, some "Internal server error"⟩) := by
  unfold search_places
  cases hs : splitWs (lowerL q) with
  | nil => exact absurd hs h
  | cons a as => rfl

/-- Any data list produced by the search handler is either the early empty
list or a `searchCore` output on the fetched table. -/
theorem search_places_data_cases (dist : Rat × Rat → Rat × Rat → Int)
    (fetch : Except String (List Village)) (q : List Char) (limit0 : Nat)
    (plat plng : Option Rat) (l : List LocationInfo)
    (h : (search_places dist fetch q limit0 plat plng).2.data = some l) :
    l = [] ∨ ∃ db, fetch = Except.ok db ∧
      l = searchCore dist (userLoc plat plng) db
        ((splitWs (lowerL q)).map mkPattern) (effectiveLimit limit0) := by
  by_cases hq : splitWs (lowerL q) = []
  · rw [search_places_no_keywords dist fetch q limit0 plat plng hq] at h
    exact Or.inl (Option.some_injective _ h).symm
  · cases fetch with
    | ok db =>
      rw [search_places_ok dist db q limit0 plat plng hq] at h
      exact Or.inr ⟨db, rfl, (Option.some_injective _ h).symm⟩
    | error e =>
      rw [search_places_err dist e q limit0 plat plng hq] at h
      exact absurd h (by simp)

/-- Every element of a `searchCore` output is the annotation of a pool row. -/
theorem mem_searchCore {dist : Rat × Rat → Rat × Rat → Int}
    {uloc : Option (Rat × Rat)} {db : List Village} {kws : List (List Char)}
    {limit : Nat} {x : LocationInfo} (hx : x ∈ searchCore dist uloc db kws limit) :
    ∃ v ∈ searchPool db kws, x = mkInfo dist uloc v := by
  unfold searchCore at hx
  have hx2 := (List.take_sublist _ _).subset hx
  have hx3 : x ∈ (searchPool db kws).map (mkInfo dist uloc) := by
    by_cases hu : uloc.isSome = true
    · rw [if_pos hu] at hx2
      exact mem_sortBy.1 hx2
    · rw [if_neg hu] at hx2
      exact mem_sortBy.1 hx2
  rcases List.mem_map.1 hx3 with ⟨v, hv, hxv⟩
  exact ⟨v, hv, hxv.symm⟩

/-- The truncated output never exceeds the limit. -/
theorem searchCore_length_le (dist : Rat × Rat → Rat × Rat → Int)
    (uloc : Option (Rat × Rat)) (db : List Village) (kws : List (List Char))
    (limit : Nat) : (searchCore dist uloc db kws limit).length ≤ limit := by
  unfold searchCore
  exact List.length_take_le _ _

/-- Without a reference point the output is sorted by village-name length. -/
theorem searchCore_sorted_name (dist : Rat × Rat → Rat × Rat → Int)
    (db : List Village) (kws : List (List Char)) (limit : Nat) :
    (searchCore dist none db kws limit).Pairwise
      (fun a b => a.name.length ≤ b.name.length) := by
  unfold searchCore
  simp only [Option.isSome_none, Bool.false_eq_true, if_false]
  refine List.Pairwise.sublist (List.take_sublist _ _) ?_
  exact pairwise_sortBy (fun a : LocationInfo => a.name.length) _

/-- With a reference point the output is sorted by the sentinel distance
key of the comparator. -/
theorem searchCore_sorted_dist (dist : Rat × Rat → Rat × Rat → Int)
    (u : Rat × Rat) (db : List Village) (kws : List (List Char)) (limit : Nat) :
    (searchCore dist (some u) db kws limit).Pairwise
      (fun a b => distKey a ≤ distKey b) := by
  unfold searchCore
  simp only [Option.isSome_some, if_true]
  refine List.Pairwise.sublist (List.take_sublist _ _) ?_
  exact pairwise_sortBy (fun a : LocationInfo => distKey a) _

/-- Data lists of reference-point-free searches are sorted by village-name
length (shared by C5 and C10). -/
theorem sorted_name_of_data (dist : Rat × Rat → Rat × Rat → Int)
    (fetch : Except String (List Village)) (q : List Char) (limit0 : Nat)
    (l : List LocationInfo)
    (h : (search_places dist fetch q limit0 none none).2.data = some l) :
    l.Pairwise (fun a b => a.name.length ≤ b.name.length) := by
  rcases search_places_data_cases dist fetch q limit0 none none l h with rfl | ⟨db, _, rfl⟩
  · simp
  · exact searchCore_sorted_name dist db _ _

/-- C5 (counterexample): searching `x` with no reference point over the
two-row table returns the rows ordered by village-name length — the row
with the longer full display name (`Kelurahan aa, Kecamatan dddddddddd,
x, x`, 40 characters) comes before the row with the shorter full display
name (32 characters), so the output is not sorted ascending by
display-name length. -/
theorem c5_counterexample :
    (search_places distZero (Except.ok [shortNameVillage, longNameVillage])
        ("x".toList) 10 none none).2.data =
      some [mkInfo distZero none shortNameVillage,
        mkInfo distZero none longNameVillage] ∧
    (mkInfo distZero none longNameVillage).full_name.length <
      (mkInfo distZero none shortNameVillage).full_name.length := by
  decide

/-- C5 (amended): for every text-search request without a reference
point, the returned list is sorted ascending by the length of the
village `name` field (not by the length of the full display name). -/
theorem c5_sorted_by_name_length (dist : Rat × Rat → Rat × Rat → Int)
    (fetch : Except String (List Village)) (q : List Char) (limit0 : Nat)
    (l : List LocationInfo)
    (h : (search_places dist fetch q limit0 none none).2.data = some l) :
    l.Pairwise (fun a b => a.name.length ≤ b.name.length) := by
  exact sorted_name_of_data dist fetch q limit0 l h

/-- Witness for C5 (amended) at the counterexample input: the returned
village-name lengths 2 and 3 are ascending. -/
theorem c5_sorted_by_name_length_witness :
    ([mkInfo distZero none shortNameVillage,
      mkInfo distZero none longNameVillage] :
        List LocationInfo).Pairwise (fun a b => a.name.length ≤ b.name.length) :=
  c5_sorted_by_name_length distZero
    (Except.ok [shortNameVillage, longNameVillage]) ("x".toList) 10 _ (by decide)

/-- C6: with a reference point `(lat, lng)` supplied, every returned row
carries `distance_meters = some (dist refPoint centroid)` — the (abstract,
haversine-rounded) distance from the reference point to the row's own
centroid — and the list is sorted ascending by exactly that distance. -/
theorem c6_distance_sort (dist : Rat × Rat → Rat × Rat → Int)
    (fetch : Except String (List Village)) (q : List Char) (limit0 : Nat)
    (la ln : Rat) (l : List LocationInfo)
    (h : (search_places dist fetch q limit0 (some la) (some ln)).2.data = some l) :
    (∀ x ∈ l, x.distance_meters = some (dist (ln, la) (x.lng, x.lat))) ∧
    l.Pairwise (fun a b =>
      dist (ln, la) (a.lng, a.lat) ≤ dist (ln, la) (b.lng, b.lat)) := by
  rcases search_places_data_cases dist fetch q limit0 (some la) (some ln) l h with
    rfl | ⟨db, _, rfl⟩
  · exact ⟨by simp, by simp⟩
  · have hmem : ∀ x ∈ searchCore dist (userLoc (some la) (some ln)) db
        ((splitWs (lowerL q)).map mkPattern) (effectiveLimit limit0),
        x.distance_meters = some (dist (ln, la) (x.lng, x.lat)) := by
      intro x hx
      rcases mem_searchCore hx with ⟨v, _, rfl⟩
      rfl
    refine ⟨hmem, ?_⟩
    have hp := searchCore_sorted_dist dist (ln, la) db
      ((splitWs (lowerL q)).map mkPattern) (effectiveLimit limit0)
    refine hp.imp_of_mem ?_
    intro a b ha hb hab
    have hda := hmem a ha
    have hdb := hmem b hb
    rw [distKey, distKey, hda, hdb] at hab
    exact hab

/-- Witness for C6: a two-row search with a reference point, annotated by
a distance function that puts the second row nearer. -/
theorem c6_distance_sort_witness :
    (∀ x ∈ [mkInfo distToll (some ((0 : Rat), (0 : Rat))) longNameVillage,
        mkInfo distToll (some ((0 : Rat), (0 : Rat))) shortNameVillage],
      x.distance_meters = some (distToll ((0 : Rat), (0 : Rat)) (x.lng, x.lat))) ∧
    ([mkInfo distToll (some ((0 : Rat), (0 : Rat))) longNameVillage,
      mkInfo distToll (some ((0 : Rat), (0 : Rat))) shortNameVillage] :
        List LocationInfo).Pairwise (fun a b =>
      distToll ((0 : Rat), (0 : Rat)) (a.lng, a.lat) ≤
        distToll ((0 : Rat), (0 : Rat)) (b.lng, b.lat)) :=
  c6_distance_sort distToll (Except.ok [shortNameVillage, longNameVillage])
    ("x".toList) 10 0 0 _ (by decide)

/-- C7: a requested limit of 0 becomes the default 10 and limits above 50
clamp to 50; the returned list never exceeds the effective limit (hence
never 50 entries). -/
theorem c7_limit_clamp (dist : Rat × Rat → Rat × Rat → Int)
    (fetch : Except String (List Village)) (q : List Char) (limit0 : Nat)
    (plat plng : Option Rat) (l : List LocationInfo)
    (h : (search_places dist fetch q limit0 plat plng).2.data = some l) :
    l.length ≤ effectiveLimit limit0 ∧ effectiveLimit limit0 ≤ 50 ∧
      effectiveLimit 0 = 10 ∧ ∀ n : Nat, 50 < n → effectiveLimit n = 50 := by
  refine ⟨?_, ?_, rfl, fun n hn => ?_⟩
  · rcases search_places_data_cases dist fetch q limit0 plat plng l h with
      rfl | ⟨db, _, rfl⟩
    · simp
    · exact searchCore_length_le _ _ _ _ _
  · unfold effectiveLimit
    by_cases h0 : limit0 = 0
    · rw [if_pos h0]
      omega
    · rw [if_neg h0]
      exact min_le_right _ _
  · unfold effectiveLimit
    rw [if_neg (by omega)]
    exact min_eq_right_iff.2 (le_of_lt hn)

/-- Witness for C7 at limit 1000 over a one-row table. -/
theorem c7_limit_clamp_witness :
    ([mkInfo distZero none cxVillage] : List LocationInfo).length ≤
        effectiveLimit 1000 ∧ effectiveLimit 1000 ≤ 50 ∧
      effectiveLimit 0 = 10 ∧ ∀ n : Nat, 50 < n → effectiveLimit n = 50 :=
  c7_limit_clamp distZero (Except.ok [cxVillage]) ("ax".toList) 1000
    none none _ (by decide)

/-- Lowering keeps whitespace characters unchanged. -/
theorem lowerChar_of_ws {c : Char} (h : isWs c = true) : lowerChar c = c := by
  unfold isWs at h
  simp only [Bool.or_eq_true, beq_iff_eq] at h
  rcases h with ((rfl | rfl) | rfl) | rfl <;> decide

/-- Splitting an all-whitespace string yields no tokens. -/
theorem splitWsAux_all_ws (s : List Char) (h : ∀ c ∈ s, isWs c = true) :
    splitWsAux s [] = [] := by
  induction s with
  | nil => rfl
  | cons c cs ih =>
    have hc := h c (List.mem_cons_self c cs)
    unfold splitWsAux
    rw [if_pos hc]
    simpa using ih fun x hx => h x (List.mem_cons_of_mem c hx)

/-- C8: a query that is empty or consists only of whitespace makes the
handler return the 200 `success:true`, empty-data response at once, for
every repository outcome — in particular even when the repository would
fail, showing that no repository query is consulted. -/
theorem c8_whitespace_query (dist : Rat × Rat → Rat × Rat → Int)
    (fetch : Except String (List Village)) (q : List Char) (limit0 : Nat)
    (plat plng : Option Rat) (h : ∀ c ∈ q, isWs c = true) :
    search_places dist fetch q limit0 plat plng = (200, ⟨true, some [], none⟩) := by
  apply search_places_no_keywords
  unfold splitWs
  apply splitWsAux_all_ws
  intro c hc
  rcases List.mem_map.1 hc with ⟨c0, hc0, rfl⟩
  rw [lowerChar_of_ws (h c0 hc0)]
  exact h c0 hc0

/-- Witness for C8: a whitespace query against a failing repository still
answers success with empty data. -/
theorem c8_whitespace_query_witness :
    search_places distZero (Except.error "storage unavailable")
        ("  ".toList) 7 none none = (200, ⟨true, some [], none⟩) :=
  c8_whitespace_query distZero (Except.error "storage unavailable")
    ("  ".toList) 7 none none (by decide)

/-- C9: every `LocationInfo` produced by the search handler carries the
level tag `village` — the constant selected by the villages-only query. -/
theorem c9_level_village (dist : Rat × Rat → Rat × Rat → Int)
    (fetch : Except String (List Village)) (q : List Char) (limit0 : Nat)
    (plat plng : Option Rat) (l : List LocationInfo)
    (h : (search_places dist fetch q limit0 plat plng).2.data = some l) :
    ∀ x ∈ l, x.level = "village".toList := by
  intro x hx
  rcases search_places_data_cases dist fetch q limit0 plat plng l h with
    rfl | ⟨db, _, rfl⟩
  · simp at hx
  · rcases mem_searchCore hx with ⟨v, _, rfl⟩
    rfl

/-- Witness for C9 at a concrete one-row search. -/
theorem c9_level_village_witness :
    (mkInfo distZero none cxVillage).level = "village".toList :=
  c9_level_village distZero (Except.ok [cxVillage]) ("ax".toList) 10
    none none [mkInfo distZero none cxVillage] (by decide)
    (mkInfo distZero none cxVillage) (by decide)

/-- C10: when exactly one of the `lat`/`lng` parameters is present the
request behaves exactly as if neither were: the whole response equals the
no-reference-point response, every returned row has `distance_meters =
none`, and the list is sorted by village-name length. -/
theorem c10_partial_reference (dist : Rat × Rat → Rat × Rat → Int)
    (fetch : Except String (List Village)) (q : List Char) (limit0 : Nat)
    (plat plng : Option Rat) (h : plat = none ∨ plng = none) :
    search_places dist fetch q limit0 plat plng =
      search_places dist fetch q limit0 none none ∧
    ∀ l, (search_places dist fetch q limit0 plat plng).2.data = some l →
      (∀ x ∈ l, x.distance_meters = none) ∧
      l.Pairwise (fun a b => a.name.length ≤ b.name.length) := by
  have hu : userLoc plat plng = none := by
    rcases h with rfl | rfl
    · rfl
    · cases plat <;> rfl
  have heq : search_places dist fetch q limit0 plat plng =
      search_places dist fetch q limit0 none none := by
    unfold search_places
    rw [hu]
    rfl
  refine ⟨heq, fun l hl => ?_⟩
  rw [heq] at hl
  constructor
  · intro x hx
    rcases search_places_data_cases dist fetch q limit0 none none l hl with
      rfl | ⟨db, _, rfl⟩
    · simp at hx
    · rcases mem_searchCore hx with ⟨v, _, rfl⟩
      rfl
  · exact sorted_name_of_data dist fetch q limit0 l hl

/-- Witness for C10: supplying only `lat` equals supplying neither. -/
theorem c10_partial_reference_witness :
    search_places distZero (Except.ok [shortNameVillage, longNameVillage])
        ("x".toList) 10 (some 5) none =
      search_places distZero (Except.ok [shortNameVillage, longNameVillage])
        ("x".toList) 10 none none :=
  (c10_partial_reference distZero (Except.ok [shortNameVillage, longNameVillage])
    ("x".toList) 10 (some 5) none (Or.inr rfl)).1
